import Mathlib

/-!
Verification of the vector-search / pagination / extension-lifecycle subsystem.

Shallow embedding conventions:
* TypeScript `undefined` for an optional field is `Option.none`; a supplied
  value is `some v`.
* JavaScript truthiness is modelled explicitly where the source relies on it
  (`none` and `some ""` are falsy for strings, `0` is falsy for numbers).
* Machine numbers that the source treats as floats are modelled as `Int` or
  `Rat`: every claim about them is order-theoretic or integrality-based, never
  about rounding.
* A database query over an ordered row set is modelled as a function on the
  `List` of rows in that order; `LIMIT n` is `List.take n` and `OFFSET n` is
  `List.drop n`.
* A method that can `throw` returns `Except String _`.
-/

namespace Immich

/-! ## Pagination (`infra.utils`: `paginationHelper`, `paginate`, `paginatedBuilder`) -/

/-- Source `PaginationResult<T>` from `domain.util`: page items plus lookahead flag. -/
structure PaginationResult (α : Type) where
  items : List α
  hasNextPage : Bool
deriving DecidableEq, Repr

/-- Source `PaginationMode` from `domain.util`: the two query-building modes used by
`paginatedBuilder`. -/
inductive PaginationMode where
  | limitOffset
  | skipTake
deriving DecidableEq, Repr

/-- Source `paginationHelper(items, take)`: `hasNextPage = items.length > take`, then
`items.splice(take)` keeps only the first `take` items. -/
def paginationHelper (items : List α) (take : Nat) : PaginationResult α :=
  { items := items.take take, hasNextPage := items.length > take }

/-- Source `paginate(repository, { take, skip })`: fetches `take + 1` rows after
skipping `skip` from the ordered matching rows, then applies
`paginationHelper`. -/
def paginate (rows : List α) (take skip : Nat) : PaginationResult α :=
  paginationHelper ((rows.drop skip).take (take + 1)) take

/-- Source `paginatedBuilder(qb, { take, skip, mode })`: in `LIMIT_OFFSET` mode the
source runs `qb.limit(take + 1).offset(skip)`; in the other mode it runs
`qb.skip(take + 1).take(skip)` (the arguments as written in the source). Both
feed the fetched rows to `paginationHelper`. -/
def paginatedBuilder (rows : List α) (take skip : Nat) : PaginationMode → PaginationResult α
  | .limitOffset => paginationHelper ((rows.drop skip).take (take + 1)) take
  | .skipTake => paginationHelper ((rows.drop (take + 1)).take skip) take

/-! ## Hybrid search query builder (`infra.utils`: `searchAssetBuilder`) -/

/-- Dates only matter to the builder through presence and ordering; they are
modelled as integers. -/
abbrev Date := Int

/-- Source `SearchDateOptions` from `search.repository`. -/
structure SearchDateOptions where
  createdBefore : Option Date := none
  createdAfter : Option Date := none
  takenBefore : Option Date := none
  takenAfter : Option Date := none
  trashedBefore : Option Date := none
  trashedAfter : Option Date := none
  updatedBefore : Option Date := none
  updatedAfter : Option Date := none
deriving DecidableEq, Repr

/-- Source `SearchPathOptions` from `search.repository`. -/
structure SearchPathOptions where
  encodedVideoPath : Option String := none
  originalFileName : Option String := none
  originalPath : Option String := none
  resizePath : Option String := none
  webpPath : Option String := none
deriving DecidableEq, Repr

/-- Source `SearchExifOptions` from `search.repository`. -/
structure SearchExifOptions where
  city : Option String := none
  country : Option String := none
  lensModel : Option String := none
  make : Option String := none
  model : Option String := none
  state : Option String := none
deriving DecidableEq, Repr

/-- Source `SearchIDOptions` from `search.repository` (the checksum buffer is modelled
as a string; only presence and equality matter to the builder). -/
structure SearchIDOptions where
  checksum : Option String := none
  deviceAssetId : Option String := none
  deviceId : Option String := none
  id : Option String := none
  libraryId : Option String := none
  ownerId : Option String := none
deriving DecidableEq, Repr

/-- Source `SearchStatusOptions` from `search.repository` (`type` is the asset-type
enum, modelled as a string). -/
structure SearchStatusOptions where
  isArchived : Option Bool := none
  isEncoded : Option Bool := none
  isExternal : Option Bool := none
  isFavorite : Option Bool := none
  isMotion : Option Bool := none
  isOffline : Option Bool := none
  isReadOnly : Option Bool := none
  isVisible : Option Bool := none
  type : Option String := none
  withArchived : Option Bool := none
  withDeleted : Option Bool := none
deriving DecidableEq, Repr

/-- Source `SearchRelationOptions` from `search.repository`. -/
structure SearchRelationOptions where
  withExif : Option Bool := none
  withSmartInfo : Option Bool := none
  withFaces : Option Bool := none
  withPeople : Option Bool := none
  withStacked : Option Bool := none
deriving DecidableEq, Repr

/-- Source `AssetSearchBuilderOptions` from `search.repository` (the `order` key is
omitted there and unused by the builder). -/
structure AssetSearchBuilderOptions where
  date : Option SearchDateOptions := none
  id : Option SearchIDOptions := none
  exif : Option SearchExifOptions := none
  path : Option SearchPathOptions := none
  relation : Option SearchRelationOptions := none
  status : Option SearchStatusOptions := none
deriving DecidableEq, Repr

/-- One WHERE predicate accumulated by the TypeORM query builder: inclusive
range / lower bound / upper bound on a date column, equality on a string or
boolean column, or an IS NOT NULL filter. -/
inductive Pred where
  | between (field : String) (lo hi : Date)
  | ge (field : String) (lo : Date)
  | le (field : String) (hi : Date)
  | eqStr (field : String) (v : String)
  | eqBool (field : String) (v : Bool)
  | notNull (field : String)
deriving DecidableEq, Repr

/-- The observable state of the TypeORM `SelectQueryBuilder` as driven by
`searchAssetBuilder`: accumulated WHERE predicates, left-join targets, and
whether `withDeleted()` was invoked (soft-deleted rows eligible). -/
structure QB where
  wheres : List Pred := []
  joins : List String := []
  withDeleted : Bool := false
deriving DecidableEq, Repr

/-- Source `OptionalBetween(from, to)`: both bounds give `Between`, only the lower
gives `MoreThanOrEqual`, only the upper gives `LessThanOrEqual`, neither gives
`undefined` (the predicate is omitted by the surrounding `omitBy`). -/
def OptionalBetween (field : String) : Option Date → Option Date → Option Pred
  | some lo, some hi => some (.between field lo hi)
  | some lo, none => some (.ge field lo)
  | none, some hi => some (.le field hi)
  | none, none => none

/-- JS truthiness of an optional string: `undefined` and `''` are falsy. -/
def truthyStr : Option String → Bool
  | none => false
  | some s => !(s == "")

/-- JS truthiness of an optional boolean: only `some true` is truthy. -/
def truthyBool : Option Bool → Bool
  | some b => b
  | none => false

/-- The date block of `searchAssetBuilder`: one `OptionalBetween` per logical
instant, with `undefined` entries removed by `omitBy`. -/
def datePreds (d : SearchDateOptions) : List Pred :=
  [OptionalBetween "createdAt" d.createdAfter d.createdBefore,
   OptionalBetween "updatedAt" d.updatedAfter d.updatedBefore,
   OptionalBetween "deletedAt" d.trashedAfter d.trashedBefore,
   OptionalBetween "fileCreatedAt" d.takenAfter d.takenBefore].filterMap id

/-- Equality predicates for the supplied (non-`undefined`) fields of a list of
optional string columns, mirroring `omitBy(obj, isUndefined)` fed to
`andWhere`. -/
def eqStrPreds (fields : List (String × Option String)) : List Pred :=
  fields.filterMap fun p => p.2.map (Pred.eqStr p.1)

/-- The exif block: equality predicates for supplied fields. -/
def exifPreds (e : SearchExifOptions) : List Pred :=
  eqStrPreds [("city", e.city), ("country", e.country), ("lensModel", e.lensModel),
              ("make", e.make), ("model", e.model), ("state", e.state)]

/-- The id block: equality predicates for supplied fields. -/
def idPreds (i : SearchIDOptions) : List Pred :=
  eqStrPreds [("checksum", i.checksum), ("deviceAssetId", i.deviceAssetId),
              ("deviceId", i.deviceId), ("id", i.id), ("libraryId", i.libraryId),
              ("ownerId", i.ownerId)]

/-- The path block: equality predicates for supplied fields. -/
def pathPreds (p : SearchPathOptions) : List Pred :=
  eqStrPreds [("encodedVideoPath", p.encodedVideoPath),
              ("originalFileName", p.originalFileName), ("originalPath", p.originalPath),
              ("resizePath", p.resizePath), ("webpPath", p.webpPath)]

/-- The `otherStatuses` rest object of the status block: every status field
except the destructured `isEncoded` and `isMotion`, supplied fields becoming
equality predicates. -/
def otherStatusPreds (s : SearchStatusOptions) : List Pred :=
  ([("isArchived", s.isArchived), ("isExternal", s.isExternal),
    ("isFavorite", s.isFavorite), ("isOffline", s.isOffline),
    ("isReadOnly", s.isReadOnly), ("isVisible", s.isVisible),
    ("withArchived", s.withArchived), ("withDeleted", s.withDeleted)].filterMap
      fun p => p.2.map (Pred.eqBool p.1)) ++
  (s.type.map (Pred.eqStr "type")).toList

/-- Source `if (date) { builder.andWhere(omitBy({...}, isUndefined)) }`. -/
def dateBlock : Option SearchDateOptions → List Pred
  | some d => datePreds d
  | none => []

/-- Source `if (exif) { builder.andWhere(exifWhere) }`. -/
def exifBlock : Option SearchExifOptions → List Pred
  | some e => exifPreds e
  | none => []

/-- The `exifInfo` left join added when at least one exif predicate is
supplied. -/
def exifJoin : Option SearchExifOptions → List String
  | some e => if (exifPreds e).length > 0 then ["exifInfo"] else []
  | none => []

/-- Source `if (id) { builder.andWhere(omitBy(id, isUndefined)) }`. -/
def idBlock : Option SearchIDOptions → List Pred
  | some i => idPreds i
  | none => []

/-- Source `if (path) { builder.andWhere(omitBy(path, isUndefined)) }`. -/
def pathBlock : Option SearchPathOptions → List Pred
  | some p => pathPreds p
  | none => []

/-- The `otherStatuses` equality predicates of the status block. -/
def statusBlock : Option SearchStatusOptions → List Pred
  | some s => otherStatusPreds s
  | none => []

/-- Source `if (isEncoded && !path?.encodedVideoPath) { builder.andWhere({ encodedVideoPath: Not(IsNull()) }) }`
(JS truthiness on both operands). -/
def encodedBlock (st : Option SearchStatusOptions) (pa : Option SearchPathOptions) : List Pred :=
  match st with
  | some s =>
    if truthyBool s.isEncoded && !truthyStr (pa.bind SearchPathOptions.encodedVideoPath) then
      [Pred.notNull "encodedVideoPath"]
    else []
  | none => []

/-- Source `if (isMotion) { builder.andWhere({ livePhotoVideoId: Not(IsNull()) }) }`. -/
def motionBlock : Option SearchStatusOptions → List Pred
  | some s => if truthyBool s.isMotion then [Pred.notNull "livePhotoVideoId"] else []
  | none => []

/-- The relation block's left joins. -/
def relationJoins : Option SearchRelationOptions → List String
  | some r =>
    (if truthyBool r.withExif then ["exifInfo"] else []) ++
    (if truthyBool r.withFaces || truthyBool r.withPeople then ["faces"] else []) ++
    (if truthyBool r.withPeople then ["person"] else []) ++
    (if truthyBool r.withSmartInfo then ["smartInfo"] else []) ++
    (if truthyBool r.withStacked then ["stack"] else [])
  | none => []

/-- Source `searchAssetBuilder(builder, options)` translated block by block from the
source: date, exif, id, path and status predicate blocks, relation left-joins,
and the final soft-delete policy
`status?.withDeleted ?? (date?.trashedAfter !== undefined || date?.trashedBefore !== undefined)`,
which invokes `builder.withDeleted()` when truthy. -/
def searchAssetBuilder (builder : QB) (options : AssetSearchBuilderOptions) : QB :=
  let wd := match options.status.bind SearchStatusOptions.withDeleted with
    | some b => b
    | none =>
      (options.date.bind SearchDateOptions.trashedAfter).isSome ||
      (options.date.bind SearchDateOptions.trashedBefore).isSome
  { wheres := builder.wheres ++ dateBlock options.date ++ exifBlock options.exif ++
      idBlock options.id ++ pathBlock options.path ++ statusBlock options.status ++
      encodedBlock options.status options.path ++ motionBlock options.status,
    joins := builder.joins ++ exifJoin options.exif ++ relationJoins options.relation,
    withDeleted := builder.withDeleted || wd }

/-- A fresh `SelectQueryBuilder` before `searchAssetBuilder` runs. -/
def emptyQB : QB := {}

/-- Source `options.status?.withDeleted` (optional chaining). -/
def statusWithDeleted (o : AssetSearchBuilderOptions) : Option Bool :=
  o.status.bind SearchStatusOptions.withDeleted

/-- Source `options.status?.isEncoded` (optional chaining). -/
def statusIsEncoded (o : AssetSearchBuilderOptions) : Option Bool :=
  o.status.bind SearchStatusOptions.isEncoded

/-- Source `options.path?.encodedVideoPath` (optional chaining). -/
def pathEncodedVideoPath (o : AssetSearchBuilderOptions) : Option String :=
  o.path.bind SearchPathOptions.encodedVideoPath

/-- Source `options.date?.trashedAfter !== undefined || options.date?.trashedBefore !== undefined`. -/
def trashedBoundPresent (o : AssetSearchBuilderOptions) : Bool :=
  (o.date.bind SearchDateOptions.trashedAfter).isSome ||
  (o.date.bind SearchDateOptions.trashedBefore).isSome

/-! ## Version gate (`database.service`: `DatabaseService.init` and
`assertVectorExtension`) -/

/-- The two interchangeable vector extension kinds (the `cube` and
`earthdistance` members of `DatabaseExtension` never reach the version
gate). -/
inductive VectorExtension where
  | vector
  | vectors
deriving DecidableEq, Repr

/-- Modelled from the spec: `VersionType` from `domain.constant` (not under
the sources) — the precision of a version comparison, ordered
`EQUAL < PATCH < MINOR < MAJOR`. -/
inductive VersionType where
  | EQUAL
  | PATCH
  | MINOR
  | MAJOR
deriving DecidableEq, Repr

/-- Numeric rank of a precision, as in the source enum. -/
def VersionType.toNat : VersionType → Nat
  | .EQUAL => 0
  | .PATCH => 1
  | .MINOR => 2
  | .MAJOR => 3

/-- Modelled from the spec: `Version` from `domain.constant` (not under the
sources) — `{major, minor, patch}`, totally ordered. -/
structure Version where
  major : Nat
  minor : Nat
  patch : Nat
deriving DecidableEq, Repr

/-- The precision of the most significant field on which two versions differ
(`EQUAL` when they coincide). -/
def Version.diffType (v w : Version) : VersionType :=
  if v.major ≠ w.major then .MAJOR
  else if v.minor ≠ w.minor then .MINOR
  else if v.patch ≠ w.patch then .PATCH
  else .EQUAL

/-- Modelled from the spec: lexicographic "is strictly older than". -/
def Version.isOlderThan (v w : Version) : Bool :=
  (v.major < w.major) ||
  (v.major = w.major && v.minor < w.minor) ||
  (v.major = w.major && v.minor = w.minor && v.patch < w.patch)

/-- Modelled from the spec: lexicographic "is strictly newer than". -/
def Version.isNewerThan (v w : Version) : Bool :=
  Version.isOlderThan w v

/-- Modelled from the spec: the pinned-precision comparison
`version.isNewerThan(minVersion, pin)` — the installed version exceeds the
minimum "beyond the pinned field", i.e. it is strictly newer and the most
significant differing field is at or above the pin precision (PATCH pin ⇒
exact match required; MINOR pin ⇒ same major+minor, any patch; MAJOR pin ⇒
same major, any minor/patch). -/
def Version.isNewerThanPinned (v minV : Version) (pin : VersionType) : Bool :=
  Version.isNewerThan v minV && (Version.diffType v minV).toNat ≥ pin.toNat

/-- The `maxVersion` of a policy: either an explicit maximum version or a pin
precision, as in `maxVectorsVersion : Version | VersionType`. -/
inductive VersionOrType where
  | ver (v : Version)
  | pin (t : VersionType)
deriving DecidableEq, Repr

/-- The version-policy fields of `DatabaseService`, with the defaults assigned
in the source: `minVectorsVersion = 0.0.0`, `maxVectorsVersion = MINOR`,
`minVectorVersion = 0.5.0`, `maxVectorVersion = MAJOR`,
`minPostgresVersion = 14`. -/
structure DatabaseServiceConfig where
  minPostgresVersion : Nat := 14
  minVectorsVersion : Version := ⟨0, 0, 0⟩
  maxVectorsVersion : VersionOrType := .pin .MINOR
  minVectorVersion : Version := ⟨0, 5, 0⟩
  maxVectorVersion : VersionOrType := .pin .MAJOR
deriving DecidableEq, Repr

/-- The defaults as constructed by `new DatabaseService(...)`. -/
def defaultDatabaseServiceConfig : DatabaseServiceConfig := {}

/-- Source `assertVectorExtension` (step 4 of `init`): `true` means the installed
version passes and startup proceeds; `false` means a fatal error is thrown.
Translated from the source, where the `0.0.0` nightly check is commented
out: throw when the extension is missing; when the policy's max is an
explicit version, throw iff the installed version is newer than it; when the
policy's max is a pin precision, throw iff the installed version is older
than the minimum or exceeds it beyond the pinned field. -/
def assertVectorExtension (cfg : DatabaseServiceConfig) (ext : VectorExtension)
    (installed : Option Version) : Bool :=
  match installed with
  | none => false
  | some version =>
    let minVersion := match ext with
      | .vector => cfg.minVectorVersion
      | .vectors => cfg.minVectorsVersion
    let maxVersion := match ext with
      | .vector => cfg.maxVectorVersion
      | .vectors => cfg.maxVectorsVersion
    match maxVersion with
    | .ver maxV => !(version.isNewerThan maxV)
    | .pin pin =>
      !(version.isOlderThan minVersion || version.isNewerThanPinned minVersion pin)

/-- Source `DatabaseService.init`: `assertPostgresql`, `createVectorExtension`,
`updateVectorExtension` (which throws only when the installed or available
version reads back `null`; an upgrade failure is a warning), then
`assertVectorExtension`, then `runMigrations`. Returns whether migrations
run, i.e. whether every preceding step passed. -/
def initRunsMigrations (cfg : DatabaseServiceConfig) (ext : VectorExtension)
    (pgMajor : Nat) (createExtensionOk : Bool)
    (installed availableVersion : Option Version) : Bool :=
  decide (pgMajor ≥ cfg.minPostgresVersion) && createExtensionOk &&
  installed.isSome && availableVersion.isSome &&
  assertVectorExtension cfg ext installed

/-! ## The `Chunked` wrapper (`infra.utils`) -/

/-- A JS value inside the array a `Chunked`-wrapped method resolves to:
either a proper element value or `undefined`. -/
inductive JsVal (β : Type) where
  | value (b : β)
  | undef
deriving DecidableEq, Repr

/-- Source `_.flatten`: one level of flattening; array elements are spliced in,
non-array elements (here: `undefined`) are kept as they are. -/
def lodashFlatten (l : List (JsVal (List β))) : List (JsVal β) :=
  (l.map fun v => match v with
    | .value xs => xs.map JsVal.value
    | .undef => [JsVal.undef]).flatten

/-- Modelled from the spec: `chunks(collection, size)` from `domain.util`
(not under the sources) — splits a collection into consecutive chunks of at
most `size` elements. Structural helper: `cap` is the remaining capacity of
the chunk being accumulated (in reverse) in `cur`. -/
def chunksAux (size : Nat) : List α → List α → Nat → List (List α)
  | [], cur, _ => if cur.isEmpty then [] else [cur.reverse]
  | x :: xs, cur, cap + 1 => chunksAux size xs (x :: cur) cap
  | x :: xs, cur, 0 => cur.reverse :: chunksAux size xs [x] (size - 1)

/-- Modelled from the spec: split `l` into consecutive chunks of at most
`size` elements. -/
def chunks (l : List α) (size : Nat) : List (List α) :=
  chunksAux size l [] size

/-- The value a `ChunkedArray()`-wrapped method (i.e. `Chunked` with
`mergeFn = _.flatten`) resolves to, translated from the source: when the
chunked argument is within the chunk-size bound the underlying method's
result is returned unchanged; otherwise the method is invoked once per chunk
inside `async (chunk) => { await originalMethod.apply(...) }` — whose arrow
body does not return the awaited result, so each per-chunk promise resolves
to `undefined` — and `mergeFn` is applied to the array of those resolved
values. -/
def chunkedArray (chunkSize : Nat) (method : List α → List β) (arg : List α) :
    List (JsVal β) :=
  if arg.length ≤ chunkSize then (method arg).map JsVal.value
  else lodashFlatten ((chunks arg chunkSize).map fun c => (fun _r => JsVal.undef) (method c))

/-- What C5 expects of a chunked call: the chunks' results merged by
concatenation, which for a function invoked on the whole collection at once
is the unchunked result. -/
def chunkedArrayExpected (method : List α → List β) (arg : List α) : List (JsVal β) :=
  (method arg).map JsVal.value

/-! ## Extension lifecycle (`database.repository`: `updateCLIPDimSize`) -/

/-- Source `isValidInteger(value, { min, max })`:
`Number.isInteger(value) && value >= min && value <= max`. The JS number is
modelled as a rational; `Number.isInteger` is "denominator 1". -/
def isValidInteger (value : Rat) (min max : Rat) : Bool :=
  value.den == 1 && decide (min ≤ value) && decide (value ≤ max)

/-- A schema-changing statement issued by `updateCLIPDimSize`. -/
inductive DdlAction where
  | dropTable (name : String)
  | createTable (name : String) (dim : Nat)
  | createIndex (name : String)
deriving DecidableEq, Repr

/-- Source `updateCLIPDimSize(dimSize)` given the dimension currently read from the
column catalog by `getCLIPDimSize` (which only returns values it validated to
be integers in `[1, 2 ** 16]`): reject non-integers and out-of-range values
before any DDL; if the dimension is unchanged, return with no DDL; otherwise
drop and recreate the embedding table at the new width and rebuild the ANN
index, all inside one transaction. The returned list is the DDL issued. -/
def updateCLIPDimSize (curDimSize : Nat) (dimSize : Rat) : Except String (List DdlAction) :=
  if !isValidInteger dimSize 1 65536 then
    .error "Invalid CLIP dimension size"
  else if (curDimSize : Rat) == dimSize then
    .ok []
  else
    .ok [.dropTable "smart_search", .createTable "smart_search" dimSize.num.toNat,
         .createIndex "clip_index"]

/-! ## Smart-info upsert (`smart-info.repository`: `upsert`) -/

/-- Source `Partial<SmartInfoEntity>` as passed to `upsert` (non-key columns besides
the tag/object lists are irrelevant to the claims). -/
structure SmartInfoPatch where
  assetId : Option String := none
  tags : Option (List String) := none
  objects : Option (List String) := none
deriving DecidableEq, Repr

/-- TypeORM `upsert` with conflict path `assetId`: replace the row with the
same `assetId` if present, else append. -/
def upsertSmartInfoRows : List SmartInfoPatch → SmartInfoPatch → List SmartInfoPatch
  | [], r => [r]
  | x :: xs, r => if x.assetId = r.assetId then r :: xs else x :: upsertSmartInfoRows xs r

/-- TypeORM `upsert` on the `smart_search` table with conflict path
`assetId`. Embedding components are rationals; the bracketed `asVector`
serialization is not modelled (no claim concerns the wire format). -/
def upsertEmbeddingRows : List (String × List Rat) → String × List Rat →
    List (String × List Rat)
  | [], r => [r]
  | x :: xs, r => if x.1 = r.1 then r :: xs else x :: upsertEmbeddingRows xs r

/-- The two tables `SmartInfoRepository.upsert` can write. -/
structure SmartInfoDb where
  smartInfo : List SmartInfoPatch
  smartSearch : List (String × List Rat)
deriving DecidableEq, Repr

/-- Source `upsert(smartInfo, embedding?)`: always upsert the smart-info record;
then `if (!smartInfo.assetId || !embedding) return;` — JS truthiness, so an
absent or empty-string `assetId` and an absent `embedding` short-circuit (an
array, even empty, is truthy) — else upsert the embedding row. Table writes
are modelled as total state updates. -/
def SmartInfoRepository.upsert (db : SmartInfoDb) (smartInfo : SmartInfoPatch)
    (embedding : Option (List Rat)) : SmartInfoDb :=
  let db1 := { db with smartInfo := upsertSmartInfoRows db.smartInfo smartInfo }
  match smartInfo.assetId, embedding with
  | some aid, some emb =>
    if aid = "" then db1
    else { db1 with smartSearch := upsertEmbeddingRows db1.smartSearch (aid, emb) }
  | _, _ => db1

/-! ## Advisory locks (`database.repository`: `withLock`, `isBusy`)

The `asyncLock` keys (`DatabaseLock[lock]`) and the database advisory-lock
ids are independent per lock id, so the state below is the state of the one
lock id being exercised. Effects run in an exception/state monad: `Except`
mirrors a rejected promise. -/

/-- Lock-relevant state of the process and its database connection for one
lock id: whether the process-local `asyncLock` entry is held, whether the
session-level `pg_advisory_lock` is held, and whether the query runner
connection is checked out. -/
structure LockState where
  localHeld : Bool := false
  dbHeld : Bool := false
  runnerOpen : Bool := false
deriving DecidableEq, Repr

/-- An effect: either a value or a thrown error, plus the updated state. -/
def DbM (α : Type) : Type := LockState → Except String α × LockState

/-- Source `try { body } finally { fin }`: `fin` runs on both the normal and the
thrown path; an error thrown by `fin` replaces the body's outcome. -/
def tryFinallyM (body : DbM α) (fin : DbM Unit) : DbM α := fun s =>
  match body s with
  | (Except.ok a, s1) =>
    match fin s1 with
    | (Except.ok _, s2) => (Except.ok a, s2)
    | (Except.error e, s2) => (Except.error e, s2)
  | (Except.error e, s1) =>
    match fin s1 with
    | (Except.ok _, s2) => (Except.error e, s2)
    | (Except.error e2, s2) => (Except.error e2, s2)

/-- Sequencing: run `a`, and if it did not throw, run `b`. -/
def seqM (a : DbM Unit) (b : DbM α) : DbM α := fun s =>
  match a s with
  | (Except.ok _, s1) => b s1
  | (Except.error e, s1) => (Except.error e, s1)

/-- Source `asyncLock.acquire(key, body)`: hold the process-local lock around
`body`; the library releases the key whether the inner promise resolves or
rejects, and the outcome is propagated. -/
def asyncLockAcquire (body : DbM α) : DbM α := fun s =>
  let r := body { s with localHeld := true }
  (r.1, { r.2 with localHeld := false })

/-- Source `this.dataSource.createQueryRunner()` (checks out a connection). -/
def createQueryRunner : DbM Unit := fun s => (Except.ok (), { s with runnerOpen := true })

/-- Source `acquireLock`: `SELECT pg_advisory_lock($1)`. -/
def acquireLock : DbM Unit := fun s => (Except.ok (), { s with dbHeld := true })

/-- Source `releaseLock`: `SELECT pg_advisory_unlock($1)`. -/
def releaseLock : DbM Unit := fun s => (Except.ok (), { s with dbHeld := false })

/-- Source `queryRunner.release()`. -/
def queryRunnerRelease : DbM Unit := fun s => (Except.ok (), { s with runnerOpen := false })

/-- Source `withLock(lock, callback)` translated from the source: under the
process-local lock, check out a query runner, then
`try { acquireLock; res = callback() } finally { try { releaseLock } finally { queryRunner.release() } }`,
propagating the callback's outcome. -/
def withLock (callback : DbM α) : DbM α :=
  asyncLockAcquire
    (seqM createQueryRunner
      (tryFinallyM (seqM acquireLock callback)
        (tryFinallyM releaseLock queryRunnerRelease)))

/-- Source `isBusy(lock)`: whether the process-local `asyncLock` entry is held. -/
def isBusy (s : LockState) : Bool := s.localHeld

/-- Decidable equality for thrown-or-returned outcomes (not provided by the
library). -/
instance [DecidableEq ε] [DecidableEq α] : DecidableEq (Except ε α) := fun x y =>
  match x, y with
  | Except.ok a, Except.ok b =>
    if h : a = b then Decidable.isTrue (by rw [h]) else Decidable.isFalse (by simp [h])
  | Except.error e, Except.error f =>
    if h : e = f then Decidable.isTrue (by rw [h]) else Decidable.isFalse (by simp [h])
  | Except.ok _, Except.error _ => Decidable.isFalse (by simp)
  | Except.error _, Except.ok _ => Decidable.isFalse (by simp)

/-! ## Face search (`smart-info.repository`: `searchFaces`) -/

/-- Source `Number.MAX_SAFE_INTEGER` (2 ** 53 - 1), the default `max` of
`isValidInteger`. -/
def maxSafeInteger : Rat := 9007199254740991

/-- An `asset_faces` row as relevant to `searchFaces`, with the owning
asset's `ownerId` denormalized onto it (the source reaches it through the
inner join `faces.asset`). Embedding components and distances are rationals;
the vector-distance operator is an opaque parameter (only its ordering is a
contract). -/
structure AssetFace where
  id : String
  assetId : String
  personId : Option String
  ownerId : String
  embedding : List Rat
deriving DecidableEq, Repr

/-- The face columns selected into the ranked CTE: every own column of
`AssetFaceEntity` except the raw `embedding` (`faceColumns` filters it
out). -/
structure FaceNoEmbedding where
  id : String
  assetId : String
  personId : Option String
deriving DecidableEq, Repr

/-- The projection performed by `faceColumns`. -/
def AssetFace.withoutEmbedding (f : AssetFace) : FaceNoEmbedding :=
  ⟨f.id, f.assetId, f.personId⟩

/-- Source `FaceSearchResult` from `search.repository`. -/
structure FaceSearchResult where
  face : FaceNoEmbedding
  distance : Rat
deriving DecidableEq, Repr

/-- Stable insertion into a list sorted by ascending key. -/
def orderedInsertBy (key : α → Rat) (a : α) : List α → List α
  | [] => [a]
  | b :: l => if key a ≤ key b then a :: b :: l else b :: orderedInsertBy key a l

/-- Source `ORDER BY key ASC` over the rows, as a stable sort. -/
def sortByKey (key : α → Rat) : List α → List α
  | [] => []
  | a :: l => orderedInsertBy key a (sortByKey key l)

/-- The outer query: keep CTE rows with `distance <= maxDistance` and build
`FaceSearchResult`s from the embedding-free columns. -/
def faceResults (dist : List Rat → List Rat → Rat) (emb : List Rat) (maxDistance : Rat)
    (l : List AssetFace) : List FaceSearchResult :=
  (l.filter fun f => decide (dist f.embedding emb ≤ maxDistance)).map
    fun f => ⟨f.withoutEmbedding, dist f.embedding emb⟩

/-- Source `searchFaces({userIds, embedding, numResults, maxDistance, hasPerson})`
translated from the source. The CTE restricts to faces whose owning asset
belongs to `userIds` (and, when `hasPerson` is truthy, to faces with a
non-null `personId` — SQL applies WHERE before LIMIT), orders by ascending
distance to the query embedding, and — only when `numResults` is truthy
(present and nonzero) — validates it as an integer `>= 1` and limits the CTE
to `max(numResults, 64)` rows. The outer query keeps rows with
`distance <= maxDistance`. -/
def searchFaces (dist : List Rat → List Rat → Rat) (faces : List AssetFace)
    (userIds : List String) (embedding : List Rat) (numResults : Option Int)
    (maxDistance : Rat) (hasPerson : Option Bool) :
    Except String (List FaceSearchResult) :=
  let cand := faces.filter fun f =>
    userIds.contains f.ownerId && (!truthyBool hasPerson || f.personId.isSome)
  let sorted := sortByKey (fun f => dist f.embedding embedding) cand
  match numResults with
  | some n =>
    if n ≠ 0 then
      if !isValidInteger (n : Rat) 1 maxSafeInteger then
        Except.error "Invalid value for numResults"
      else
        Except.ok (faceResults dist embedding maxDistance (sorted.take (max n 64).toNat))
    else Except.ok (faceResults dist embedding maxDistance sorted)
  | none => Except.ok (faceResults dist embedding maxDistance sorted)

/-- Sixty-five faces owned by user `u`, none linked to a person. -/
def faces65 : List AssetFace :=
  (List.range 65).map fun i => ⟨toString i, "a", none, "u", [(i : Rat)]⟩

end Immich

namespace Immich

/-- C4: the result size of `paginate` is `min (N - skip) take` and
`hasNextPage` holds exactly when `N - skip > take`, equivalently exactly when
`take + 1` rows came back from the lookahead fetch. -/
theorem paginate_size_hasNextPage (rows : List α) (take skip : Nat) :
    (paginate rows take skip).items.length = min (rows.length - skip) take ∧
    ((paginate rows take skip).hasNextPage = true ↔ rows.length - skip > take) ∧
    ((paginate rows take skip).hasNextPage = true ↔
      ((rows.drop skip).take (take + 1)).length = take + 1) := by
  simp only [paginate, paginationHelper, List.length_take, List.length_drop]
  refine ⟨by omega, ?_, ?_⟩ <;> (simp; try omega)

/-- C2: at `take = 1`, `skip = 0` over the stored ordered rows `[0, 1, 2]`,
the two modes of `paginatedBuilder` disagree: `LIMIT_OFFSET` yields the page
`[0]` with `hasNextPage = true`, while the skip/take mode (which the source
calls as `qb.skip(take + 1).take(skip)`) yields the empty page with
`hasNextPage = false`. -/
theorem paginatedBuilder_modes_disagree :
    paginatedBuilder [0, 1, 2] 1 0 PaginationMode.limitOffset =
      { items := [(0 : Nat)], hasNextPage := true } ∧
    paginatedBuilder [0, 1, 2] 1 0 PaginationMode.skipTake =
      { items := ([] : List Nat), hasNextPage := false } ∧
    paginatedBuilder [0, 1, 2] 1 0 PaginationMode.limitOffset ≠
      paginatedBuilder [0, 1, 2] 1 0 PaginationMode.skipTake := by
  decide

theorem OptionalBetween_ne_notNull (g : String) (a b : Option Date) (f : String) :
    OptionalBetween g a b ≠ some (Pred.notNull f) := by
  cases a <;> cases b <;> simp [OptionalBetween]

theorem notNull_not_mem_datePreds (d : SearchDateOptions) (f : String) :
    Pred.notNull f ∉ datePreds d := by
  intro h
  rcases List.mem_filterMap.mp h with ⟨o, ho, h2⟩
  have h2' : o = some (Pred.notNull f) := h2
  fin_cases ho <;> exact OptionalBetween_ne_notNull _ _ _ _ h2'

theorem notNull_not_mem_eqStrPreds (l : List (String × Option String)) (f : String) :
    Pred.notNull f ∉ eqStrPreds l := by
  intro h
  simp only [eqStrPreds, List.mem_filterMap] at h
  rcases h with ⟨⟨g, v⟩, _, hv⟩
  cases v <;> simp at hv

theorem notNull_not_mem_otherStatusPreds (s : SearchStatusOptions) (f : String) :
    Pred.notNull f ∉ otherStatusPreds s := by
  intro h
  simp only [otherStatusPreds, List.mem_append, List.mem_filterMap] at h
  rcases h with ⟨⟨g, v⟩, _, hv⟩ | h
  · cases v <;> simp at hv
  · cases ht : s.type with
    | none => rw [ht] at h; simp at h
    | some t => rw [ht] at h; simp [Option.toList] at h

/-- C3 fails on the code: with `status.withDeleted` explicitly `false` and a
`trashedAfter` bound supplied, the claim's condition holds (a trashed-date
bound is present) yet the builder leaves soft-deleted rows excluded, because
`??` only falls back to the trashed-bound override when `withDeleted` is
absent. -/
theorem searchAssetBuilder_withDeleted_claim_false :
    ¬ (((searchAssetBuilder emptyQB
          { date := some { trashedAfter := some 0 },
            status := some { withDeleted := some false } }).withDeleted = true) ↔
        (statusWithDeleted
            { date := some { trashedAfter := some 0 },
              status := some { withDeleted := some false } } = some true ∨
          trashedBoundPresent
            { date := some { trashedAfter := some 0 },
              status := some { withDeleted := some false } } = true)) := by
  decide

/-- C3 (amended): `searchAssetBuilder` makes soft-deleted rows eligible iff
`status.withDeleted` is explicitly `true`, or `status.withDeleted` is absent
and at least one trashed-date bound is present; an explicit `false` excludes
them even when a trashed-date bound is supplied. -/
theorem searchAssetBuilder_withDeleted_amended (o : AssetSearchBuilderOptions) :
    (searchAssetBuilder emptyQB o).withDeleted = true ↔
      (statusWithDeleted o = some true ∨
        (statusWithDeleted o = none ∧ trashedBoundPresent o = true)) := by
  simp only [searchAssetBuilder, emptyQB, statusWithDeleted, trashedBoundPresent]
  cases h : o.status.bind SearchStatusOptions.withDeleted with
  | none => simp [h]
  | some b => cases b <;> simp [h]

/-- C9 fails on the code: with `status.isEncoded = true` and an explicit
equality predicate `path.encodedVideoPath = ''` supplied, the builder still
adds the "encoded path is not null" predicate, because the suppression test
uses JS truthiness and the empty string is falsy. -/
theorem searchAssetBuilder_isEncoded_claim_false :
    Pred.notNull "encodedVideoPath" ∈
      (searchAssetBuilder emptyQB
        { path := some { encodedVideoPath := some "" },
          status := some { isEncoded := some true } }).wheres ∧
    Pred.eqStr "encodedVideoPath" "" ∈
      (searchAssetBuilder emptyQB
        { path := some { encodedVideoPath := some "" },
          status := some { isEncoded := some true } }).wheres ∧
    pathEncodedVideoPath
      { path := some { encodedVideoPath := some "" },
        status := some { isEncoded := some true } } = some "" := by
  decide

theorem notNull_not_mem_dateBlock (od : Option SearchDateOptions) (f : String) :
    Pred.notNull f ∉ dateBlock od := by
  cases od with
  | none => simp [dateBlock]
  | some d => exact notNull_not_mem_datePreds d f

theorem notNull_not_mem_exifBlock (oe : Option SearchExifOptions) (f : String) :
    Pred.notNull f ∉ exifBlock oe := by
  cases oe with
  | none => simp [exifBlock]
  | some e => exact notNull_not_mem_eqStrPreds _ f

theorem notNull_not_mem_idBlock (oi : Option SearchIDOptions) (f : String) :
    Pred.notNull f ∉ idBlock oi := by
  cases oi with
  | none => simp [idBlock]
  | some i => exact notNull_not_mem_eqStrPreds _ f

theorem notNull_not_mem_pathBlock (op : Option SearchPathOptions) (f : String) :
    Pred.notNull f ∉ pathBlock op := by
  cases op with
  | none => simp [pathBlock]
  | some p => exact notNull_not_mem_eqStrPreds _ f

theorem notNull_not_mem_statusBlock (os : Option SearchStatusOptions) (f : String) :
    Pred.notNull f ∉ statusBlock os := by
  cases os with
  | none => simp [statusBlock]
  | some s => exact notNull_not_mem_otherStatusPreds s f

theorem encoded_not_mem_motionBlock (os : Option SearchStatusOptions) :
    Pred.notNull "encodedVideoPath" ∉ motionBlock os := by
  cases os with
  | none => simp [motionBlock]
  | some s => cases hm : truthyBool s.isMotion <;> simp [motionBlock, hm]

theorem mem_encodedBlock (s : SearchStatusOptions) (pa : Option SearchPathOptions)
    (h : s.isEncoded = some true) :
    (Pred.notNull "encodedVideoPath" ∈ encodedBlock (some s) pa ↔
      truthyStr (pa.bind SearchPathOptions.encodedVideoPath) = false) := by
  cases ht : truthyStr (pa.bind SearchPathOptions.encodedVideoPath) <;>
    simp [encodedBlock, truthyBool, h, ht]

/-- C9 (amended): when `status.isEncoded` is `true`, the builder adds the
"encoded path is not null" predicate iff no truthy (non-empty) explicit
`path.encodedVideoPath` equality predicate is supplied; an explicit empty
string does not suppress it. -/
theorem searchAssetBuilder_isEncoded_amended (o : AssetSearchBuilderOptions)
    (h : statusIsEncoded o = some true) :
    (Pred.notNull "encodedVideoPath" ∈ (searchAssetBuilder emptyQB o).wheres ↔
      (pathEncodedVideoPath o = none ∨ pathEncodedVideoPath o = some "")) := by
  have htr : (pathEncodedVideoPath o = none ∨ pathEncodedVideoPath o = some "") ↔
      truthyStr (pathEncodedVideoPath o) = false := by
    cases hp : pathEncodedVideoPath o with
    | none => simp [truthyStr]
    | some s => cases hs : (s == "") <;> simp_all [truthyStr]
  rw [htr]
  rcases ho : o.status with _ | s
  · rw [statusIsEncoded, ho] at h; simp at h
  · rw [statusIsEncoded, ho] at h
    simp only [Option.some_bind] at h
    simp only [searchAssetBuilder, emptyQB, ho, pathEncodedVideoPath, QB.wheres,
      List.nil_append, List.mem_append, notNull_not_mem_dateBlock,
      notNull_not_mem_exifBlock, notNull_not_mem_idBlock, notNull_not_mem_pathBlock,
      notNull_not_mem_statusBlock, encoded_not_mem_motionBlock, or_false, false_or,
      mem_encodedBlock s o.path h]

/-- C1 fails on the code: the dedicated `0.0.0` nightly rejection in
`assertVectorExtension` is commented out in the source, so rejection of
`0.0.0` is left to the generic min/max policy check. Under the service's own
defaults (`minVectorsVersion = 0.0.0`, pin `MINOR`) an installed `0.0.0`
pgvecto.rs extension passes the assertion and `init` proceeds to run
migrations; only the pgvector kind happens to reject it (via
`minVectorVersion = 0.5.0`). The service's unit tests and the spec both
require `0.0.0` to be rejected unconditionally. -/
theorem assertVectorExtension_accepts_nightly :
    assertVectorExtension defaultDatabaseServiceConfig VectorExtension.vectors
      (some ⟨0, 0, 0⟩) = true ∧
    initRunsMigrations defaultDatabaseServiceConfig VectorExtension.vectors 14 true
      (some ⟨0, 0, 0⟩) (some ⟨0, 0, 0⟩) = true ∧
    assertVectorExtension defaultDatabaseServiceConfig VectorExtension.vector
      (some ⟨0, 0, 0⟩) = false := by
  decide

/-- Closed witness for `searchAssetBuilder_isEncoded_amended` at a filter with
`isEncoded = true` and no explicit encoded-path predicate. -/
theorem searchAssetBuilder_isEncoded_amended_witness :
    statusIsEncoded { status := some { isEncoded := some true } } = some true ∧
    (Pred.notNull "encodedVideoPath" ∈
        (searchAssetBuilder emptyQB { status := some { isEncoded := some true } }).wheres ↔
      (pathEncodedVideoPath { status := some { isEncoded := some true } } = none ∨
        pathEncodedVideoPath { status := some { isEncoded := some true } } = some "")) :=
  ⟨by decide, searchAssetBuilder_isEncoded_amended _ (by decide)⟩

/-- C5 fails on the code: with chunk-size bound `2`, the identity method and
the oversized collection `[1, 2, 3]`, the wrapper's per-chunk arrow discards
the underlying method's result (its body awaits but does not return it), so
the merged value is `[undefined, undefined]` — one `undefined` per chunk —
instead of the single-invocation result `[1, 2, 3]`. A collection within the
bound is returned unchanged. -/
theorem chunkedArray_discards_chunk_results :
    chunkedArray 2 (fun l => l) [1, 2, 3] = [JsVal.undef, JsVal.undef] ∧
    chunkedArrayExpected (fun l => l) [(1 : Nat), 2, 3] =
      [JsVal.value 1, JsVal.value 2, JsVal.value 3] ∧
    chunkedArray 2 (fun l => l) [(1 : Nat), 2, 3] ≠
      chunkedArrayExpected (fun l => l) [1, 2, 3] ∧
    chunkedArray 2 (fun l => l) [(1 : Nat), 2] = chunkedArrayExpected (fun l => l) [1, 2] := by
  decide

/-- C7: `updateCLIPDimSize` rejects every `newDim` that is not an integer in
`[1, 65536]` with a validation error and no DDL, and is a no-op (no drop, no
recreate, no index rebuild) when `newDim` equals the dimension read from the
column catalog (`getCLIPDimSize` only hands over values in `[1, 65536]`). -/
theorem updateCLIPDimSize_spec (cur : Nat) (q : Rat)
    (hcur : 1 ≤ cur ∧ cur ≤ 65536) :
    (¬ (q.den = 1 ∧ 1 ≤ q ∧ q ≤ 65536) →
      updateCLIPDimSize cur q = Except.error "Invalid CLIP dimension size") ∧
    (q = (cur : Rat) → updateCLIPDimSize cur q = Except.ok []) := by
  constructor
  · intro hinv
    have hfalse : isValidInteger q 1 65536 = false := by
      rw [isValidInteger]
      by_contra hne
      apply hinv
      have := Bool.not_eq_false _ |>.mp hne
      simp only [Bool.and_eq_true, beq_iff_eq, decide_eq_true_eq] at this
      exact ⟨this.1.1, this.1.2, this.2⟩
    simp [updateCLIPDimSize, hfalse]
  · intro hq
    subst hq
    have hvalid : isValidInteger (cur : Rat) 1 65536 = true := by
      rw [isValidInteger]
      simp only [Bool.and_eq_true, beq_iff_eq, decide_eq_true_eq]
      refine ⟨⟨Rat.den_natCast cur, ?_⟩, ?_⟩
      · exact_mod_cast hcur.1
      · exact_mod_cast hcur.2
    simp [updateCLIPDimSize, hvalid]

/-- Closed witness for `updateCLIPDimSize_spec` at catalog dimension `512`:
the non-integer `1/2` is rejected without DDL and `512` itself is a no-op. -/
theorem updateCLIPDimSize_spec_witness :
    (1 ≤ 512 ∧ 512 ≤ 65536) ∧
    ((¬ ((mkRat 1 2).den = 1 ∧ 1 ≤ (mkRat 1 2) ∧ (mkRat 1 2) ≤ 65536) →
        updateCLIPDimSize 512 (mkRat 1 2) = Except.error "Invalid CLIP dimension size") ∧
      ((mkRat 1 2) = (512 : Nat) → updateCLIPDimSize 512 (mkRat 1 2) = Except.ok [])) ∧
    ((¬ (((512 : Nat) : Rat).den = 1 ∧ 1 ≤ ((512 : Nat) : Rat) ∧ ((512 : Nat) : Rat) ≤ 65536) →
        updateCLIPDimSize 512 ((512 : Nat) : Rat) = Except.error "Invalid CLIP dimension size") ∧
      (((512 : Nat) : Rat) = (512 : Nat) → updateCLIPDimSize 512 ((512 : Nat) : Rat) = Except.ok [])) :=
  ⟨by decide, updateCLIPDimSize_spec 512 (mkRat 1 2) ⟨by decide, by decide⟩,
    updateCLIPDimSize_spec 512 ((512 : Nat) : Rat) ⟨by decide, by decide⟩⟩

/-- C10: `upsert(smartInfo, embedding)` writes the embedding table only when
both `smartInfo.assetId` and `embedding` are provided; whenever either is
absent it writes only the smart-info record, completes without error (the
function is total), and leaves the embedding table unchanged. -/
theorem upsert_frame (db : SmartInfoDb) (si : SmartInfoPatch) (emb : Option (List Rat)) :
    ((SmartInfoRepository.upsert db si emb).smartSearch ≠ db.smartSearch →
      si.assetId.isSome ∧ emb.isSome) ∧
    (si.assetId = none ∨ emb = none →
      SmartInfoRepository.upsert db si emb =
        { db with smartInfo := upsertSmartInfoRows db.smartInfo si }) := by
  rcases ha : si.assetId with _ | aid <;> rcases he : emb with _ | e <;>
    simp only [SmartInfoRepository.upsert, ha, he] <;> simp_all

/-- C8: `withLock` invokes the callback in a state where the process-local
lock (`isBusy`) and the database advisory lock are both held, propagates the
callback's outcome — value or thrown error — unchanged, and on every exit
path (the callback is universally quantified, so in particular on every
throwing one) the final state has the advisory lock released, the query
runner released, and `isBusy` false. -/
theorem withLock_spec (callback : DbM α) (s : LockState) :
    (withLock callback s).1 = (callback ⟨true, true, true⟩).1 ∧
    isBusy ⟨true, true, true⟩ = true ∧
    isBusy (withLock callback s).2 = false ∧
    (withLock callback s).2.dbHeld = false ∧
    (withLock callback s).2.runnerOpen = false := by
  have h : withLock callback s =
      ((callback ⟨true, true, true⟩).1,
        { (callback ⟨true, true, true⟩).2 with
            localHeld := false, dbHeld := false, runnerOpen := false }) := by
    unfold withLock asyncLockAcquire seqM createQueryRunner acquireLock tryFinallyM
      releaseLock queryRunnerRelease
    rcases hcb : callback ⟨true, true, true⟩ with ⟨r, s1⟩
    rcases r <;> simp [hcb]
  rw [h]
  simp [isBusy]

theorem mem_orderedInsertBy (key : α → Rat) (a x : α) (l : List α) :
    x ∈ orderedInsertBy key a l ↔ x = a ∨ x ∈ l := by
  induction l with
  | nil => simp [orderedInsertBy]
  | cons b l ih =>
    by_cases h : key a ≤ key b <;> (simp [orderedInsertBy, h, ih]; try tauto)

theorem mem_sortByKey (key : α → Rat) (x : α) (l : List α) :
    x ∈ sortByKey key l ↔ x ∈ l := by
  induction l with
  | nil => simp [sortByKey]
  | cons a l ih => simp [sortByKey, mem_orderedInsertBy, ih]

theorem pairwise_orderedInsertBy (key : α → Rat) (a : α) (l : List α)
    (h : List.Pairwise (fun x y => key x ≤ key y) l) :
    List.Pairwise (fun x y => key x ≤ key y) (orderedInsertBy key a l) := by
  induction l with
  | nil => simp [orderedInsertBy]
  | cons b l ih =>
    rcases List.pairwise_cons.mp h with ⟨hb, hl⟩
    by_cases hab : key a ≤ key b
    · rw [orderedInsertBy, if_pos hab]
      refine List.pairwise_cons.mpr ⟨?_, h⟩
      intro x hx
      rcases List.mem_cons.mp hx with rfl | hx
      · exact hab
      · exact le_trans hab (hb x hx)
    · rw [orderedInsertBy, if_neg hab]
      refine List.pairwise_cons.mpr ⟨?_, ih hl⟩
      intro x hx
      rcases (mem_orderedInsertBy key a x l).mp hx with rfl | hx
      · exact le_of_not_le hab
      · exact hb x hx

theorem pairwise_sortByKey (key : α → Rat) (l : List α) :
    List.Pairwise (fun x y => key x ≤ key y) (sortByKey key l) := by
  induction l with
  | nil => simp [sortByKey]
  | cons a l ih => exact pairwise_orderedInsertBy key a _ ih

theorem faceResults_length_le (dist : List Rat → List Rat → Rat) (emb : List Rat)
    (maxD : Rat) (l : List AssetFace) :
    (faceResults dist emb maxD l).length ≤ l.length := by
  simpa [faceResults] using List.length_filter_le _ l

theorem faceResults_pairwise (dist : List Rat → List Rat → Rat) (emb : List Rat)
    (maxD : Rat) (l : List AssetFace)
    (h : List.Pairwise (fun f g => dist f.embedding emb ≤ dist g.embedding emb) l) :
    List.Pairwise (fun r1 r2 => r1.distance ≤ r2.distance) (faceResults dist emb maxD l) := by
  rw [faceResults]
  exact List.pairwise_map.mpr (List.Pairwise.sublist (List.filter_sublist l) h)

theorem faceResults_mem (dist : List Rat → List Rat → Rat) (emb : List Rat)
    (maxD : Rat) (l : List AssetFace) (r : FaceSearchResult)
    (hr : r ∈ faceResults dist emb maxD l) :
    ∃ f ∈ l, r.face = f.withoutEmbedding ∧ r.distance = dist f.embedding emb ∧
      r.distance ≤ maxD := by
  simp only [faceResults, List.mem_map, List.mem_filter, decide_eq_true_eq] at hr
  rcases hr with ⟨f, ⟨hfl, hfd⟩, rfl⟩
  exact ⟨f, hfl, rfl, rfl, hfd⟩

/-- C6 fails on the code: `numResults = 0` is a supplied cap, but JS
truthiness (`if (numResults)`) skips both the validation and the CTE limit,
so over 65 in-range faces the search returns 65 rows, exceeding the claim's
bound `max(numResults, 64) = 64`. -/
theorem searchFaces_cap_zero_counterexample :
    (searchFaces (fun _ _ => 0) faces65 ["u"] [] (some 0) 1 none).toOption.map
      List.length = some 65 ∧
    ¬ (65 ≤ max (0 : Int).toNat 64) := by
  decide

/-- C6 (amended): for a supplied nonzero `numResults`, whenever `searchFaces`
returns rows it returns at most `max(numResults, 64)` of them, ordered by
ascending distance, each within the supplied `maxDistance`, each restricted
to faces with a non-null `personId` when `hasPerson` is truthy, and each
built from an owned stored face's columns without the raw embedding.
(`numResults = 0` is exempt: JS truthiness skips the cap entirely.) -/
theorem searchFaces_amended (dist : List Rat → List Rat → Rat) (faces : List AssetFace)
    (userIds : List String) (emb : List Rat) (n : Int) (maxD : Rat)
    (hasPerson : Option Bool) (results : List FaceSearchResult)
    (hok : searchFaces dist faces userIds emb (some n) maxD hasPerson = Except.ok results)
    (hn : n ≠ 0) :
    results.length ≤ max n.toNat 64 ∧
    List.Pairwise (fun r1 r2 => r1.distance ≤ r2.distance) results ∧
    (∀ r ∈ results, r.distance ≤ maxD) ∧
    (truthyBool hasPerson = true → ∀ r ∈ results, r.face.personId.isSome = true) ∧
    (∀ r ∈ results, ∃ f ∈ faces, r.face = f.withoutEmbedding ∧
      r.distance = dist f.embedding emb ∧ userIds.contains f.ownerId = true) := by
  simp only [searchFaces] at hok
  rw [if_pos hn] at hok
  by_cases hv : isValidInteger (n : Rat) 1 maxSafeInteger
  · rw [if_neg (by simp [hv])] at hok
    obtain rfl := (Except.ok.inj hok).symm
    set key : AssetFace → Rat := fun f => dist f.embedding emb with hkey
    set cand : List AssetFace := faces.filter fun f =>
      userIds.contains f.ownerId && (!truthyBool hasPerson || f.personId.isSome) with hcand
    set taken : List AssetFace := (sortByKey key cand).take (max n 64).toNat with htaken
    have htosub : ∀ f : AssetFace, f ∈ taken → f ∈ cand := fun f hf =>
      (mem_sortByKey key f cand).mp (List.take_subset _ _ hf)
    have hcandmem : ∀ f : AssetFace, f ∈ cand →
        f ∈ faces ∧ userIds.contains f.ownerId = true ∧
          (!truthyBool hasPerson || f.personId.isSome) = true := by
      intro f hf
      have := List.mem_filter.mp hf
      simpa [Bool.and_eq_true] using this
    refine ⟨?_, ?_, ?_, ?_, ?_⟩
    · have h1 := faceResults_length_le dist emb maxD taken
      have h2 : taken.length ≤ (max n 64).toNat := by
        rw [htaken]; exact List.length_take_le _ _
      omega
    · refine faceResults_pairwise dist emb maxD taken ?_
      exact List.Pairwise.sublist (List.take_sublist _ _) (pairwise_sortByKey key cand)
    · intro r hr
      rcases faceResults_mem dist emb maxD taken r hr with ⟨f, _, _, _, hle⟩
      exact hle
    · intro hp r hr
      rcases faceResults_mem dist emb maxD taken r hr with ⟨f, hf, hface, _, _⟩
      have hc := (hcandmem f (htosub f hf)).2.2
      rw [hp] at hc
      simp only [Bool.not_true, Bool.false_or] at hc
      rw [hface]
      exact hc
    · intro r hr
      rcases faceResults_mem dist emb maxD taken r hr with ⟨f, hf, hface, hd, _⟩
      rcases hcandmem f (htosub f hf) with ⟨hmem, hown, _⟩
      exact ⟨f, hmem, hface, hd, hown⟩
  · rw [if_pos (by simp [hv])] at hok
    simp at hok

/-- Closed witness for `searchFaces_amended`: two stored faces, a cap of 1,
a maximum distance of 0 and `hasPerson = true` return exactly the owned,
person-linked face without its embedding. -/
theorem searchFaces_amended_witness :
    (searchFaces (fun _ _ => 0)
        [⟨"f1", "a1", some "p", "u", [0]⟩, ⟨"f2", "a2", none, "u", [0]⟩]
        ["u"] [] (some 1) 0 (some true) =
      Except.ok [⟨⟨"f1", "a1", some "p"⟩, 0⟩]) ∧
    (1 : Int) ≠ 0 ∧
    ([(⟨⟨"f1", "a1", some "p"⟩, 0⟩ : FaceSearchResult)].length ≤ max (1 : Int).toNat 64 ∧
      List.Pairwise (fun r1 r2 => r1.distance ≤ r2.distance)
        [(⟨⟨"f1", "a1", some "p"⟩, 0⟩ : FaceSearchResult)] ∧
      (∀ r ∈ [(⟨⟨"f1", "a1", some "p"⟩, 0⟩ : FaceSearchResult)], r.distance ≤ 0) ∧
      (truthyBool (some true) = true →
        ∀ r ∈ [(⟨⟨"f1", "a1", some "p"⟩, 0⟩ : FaceSearchResult)],
          r.face.personId.isSome = true) ∧
      (∀ r ∈ [(⟨⟨"f1", "a1", some "p"⟩, 0⟩ : FaceSearchResult)],
        ∃ f ∈ [(⟨"f1", "a1", some "p", "u", [0]⟩ : AssetFace), ⟨"f2", "a2", none, "u", [0]⟩],
          r.face = f.withoutEmbedding ∧ r.distance = 0 ∧
            ["u"].contains f.ownerId = true)) :=
  ⟨by decide, by decide,
    searchFaces_amended (fun _ _ => 0)
      [⟨"f1", "a1", some "p", "u", [0]⟩, ⟨"f2", "a2", none, "u", [0]⟩]
      ["u"] [] 1 0 (some true) [⟨⟨"f1", "a1", some "p"⟩, 0⟩] (by decide) (by decide)⟩

/-- Closed witness for `upsert_frame`: with `assetId` absent and an embedding
supplied, only the smart-info table is written. -/
theorem upsert_frame_witness :
    ((⟨none, some ["tag"], none⟩ : SmartInfoPatch).assetId = none ∨
        (some ([1] : List Rat)) = none) ∧
    SmartInfoRepository.upsert ⟨[], []⟩ ⟨none, some ["tag"], none⟩ (some [1]) =
      { smartInfo := upsertSmartInfoRows [] ⟨none, some ["tag"], none⟩, smartSearch := [] } :=
  ⟨Or.inl rfl,
    (upsert_frame ⟨[], []⟩ ⟨none, some ["tag"], none⟩ (some [1])).2 (Or.inl rfl)⟩

end Immich
